import Mathlib

set_option maxHeartbeats 1600000

/-! Verification of the viewport-scrolling engine of tui-textarea (`src/widget.rs`).

Shallow embedding: the Rust `u16`/`u64` machine integers are modelled as `Nat`.
Wherever the fixed width can make the Rust code behave differently from plain
`Nat` arithmetic, the width is explicit in the model:
* reads of packed fields use `% 65536` (the `as u16` casts) and `>>>`,
* `saturating_add` / `saturating_sub` become `min (x + y) 65535` / truncated
  `Nat` subtraction,
* the plain (panicking-on-overflow in debug builds) `u16` arithmetic of
  `next_scroll_top` is additionally modelled by a checked variant returning
  `Option Nat` where `none` marks an overflowing operation. -/

/-- Rust `next_scroll_top` (widget.rs 85-93), over `Nat`.  Here `cursor + 1 - len`
is truncated subtraction; on the branch where it is evaluated `len ≤ cursor`
holds, so it agrees with the exact value (overflow aside, see
`next_scroll_top_checked`). -/
def next_scroll_top (prev_top cursor len : Nat) : Nat :=
  if cursor < prev_top then cursor
  else if prev_top + len ≤ cursor then cursor + 1 - len
  else prev_top

/-- Rust `next_scroll_top` with every `u16` operation of the expression checked
against the `u16` range, in the Rust evaluation order: `prev_top + len` (in the
branch condition), then `cursor + 1`, then `- len`.  A `none` result means one
of the operations overflows or underflows `u16` (a panic in debug builds,
a wrap in release builds) instead of saturating. -/
def next_scroll_top_checked (prev_top cursor len : Nat) : Option Nat :=
  if cursor < prev_top then some cursor
  else if prev_top + len ≤ 65535 then
    if prev_top + len ≤ cursor then
      if cursor + 1 ≤ 65535 then
        if len ≤ cursor + 1 then some (cursor + 1 - len) else none
      else none
    else some prev_top
  else none

/-- Rust `Viewport::scroll_top` (widget.rs 34-37): decode `(row, col)` from the
packed 64-bit word; the `as u16` casts are `% 65536`. -/
def scroll_top (u : Nat) : Nat × Nat :=
  ((u >>> 16) % 65536, u % 65536)

/-- Rust `Viewport::rect` (widget.rs 39-46): decode `(row, col, width, height)`
from the packed word. -/
def rect (u : Nat) : Nat × Nat × Nat × Nat :=
  ((u >>> 16) % 65536, u % 65536, (u >>> 48) % 65536, (u >>> 32) % 65536)

/-- Rust `u16::saturating_add`. -/
def sat_add16 (a b : Nat) : Nat := min (a + b) 65535

/-- Rust `Viewport::position` (widget.rs 48-59); `saturating_sub(1)` is truncated
`Nat` subtraction.  Components: top row, top col, bottom row, right col. -/
def position (u : Nat) : Nat × Nat × Nat × Nat :=
  ((rect u).1, (rect u).2.1,
    max (rect u).1 (sat_add16 (rect u).1 (rect u).2.2.2 - 1),
    max (rect u).2.1 (sat_add16 (rect u).2.1 (rect u).2.2.1 - 1))

/-- Rust `Viewport::store` (widget.rs 61-66): pack the four `u16` fields into a
single 64-bit word, width highest, then height, then row, then col. -/
def store (row col width height : Nat) : Nat :=
  ((width <<< 48) ||| (height <<< 32)) ||| (row <<< 16) ||| col

/-- Rust `apply_scroll` (widget.rs 69-75) with the `i16` delta modelled as an
`Int` in `[-32768, 32767]`.  For `delta ≥ 0`, `delta as u16` is its value.  For
`delta < 0` the code computes `(-delta) as u16`: two's-complement negation (a
wrap for `i16::MIN` in release builds) followed by a reinterpreting cast, which
together give `(-delta) % 2^16` (so `i16::MIN` yields magnitude 32768). -/
def apply_scroll (pos : Nat) (delta : Int) : Nat :=
  if 0 ≤ delta then sat_add16 pos delta.toNat
  else pos - ((-delta) % 65536).toNat

/-- Rust `Viewport::scroll` (widget.rs 68-81): update the packed word, keeping
the high 32 bits (width and height) and applying the deltas to row and col. -/
def scroll (u : Nat) (rows cols : Int) : Nat :=
  ((u &&& 0xffffffff00000000) ||| (apply_scroll ((u >>> 16) % 65536) rows <<< 16)) |||
    apply_scroll (u % 65536) cols

/-- Intended clamp for `scroll_by` in the spec's words: the exact integer sum
clamped into the representable `u16` range. -/
def clamp16 (x : Int) : Nat := (min (max x 0) 65535).toNat

/-- Scanning search of `next_scroll_row_wrapped` (widget.rs 196-205):
`seg.scan(acc, sum).position(pred)`, i.e. the index of the first entry whose
cumulative sum starting from `acc` reaches `target`; `none` when no entry does. -/
def scanPos (target : Nat) : List Nat → Nat → Option Nat
  | [], _ => none
  | r :: rs, acc =>
    if target ≤ acc + r then some 0
    else
      match scanPos target rs (acc + r) with
      | some i => some (i + 1)
      | none => none

/-- Rust `next_scroll_row_wrapped` (widget.rs 172-214), over `Nat`.  The slice
`wrapped_rows[prev_top..cursor_row]` is `(drop prev_top).take (cursor_row - prev_top)`,
the indexing `wrapped_rows[cursor_row]` is `getD cursor_row 0` (in range under
the claims' preconditions), `.unwrap_or(0)` is `Option.getD 0`, the final `.min`
is `Nat.min`, and `saturating_sub` is truncated subtraction. -/
def next_scroll_row_wrapped (prev_top cursor_row viewport_height : Nat)
    (wrapped_rows : List Nat) : Nat :=
  if cursor_row < prev_top then cursor_row
  else
    let seg := (wrapped_rows.drop prev_top).take (cursor_row - prev_top)
    let rows_from_top_to_cursor := seg.sum + 1
    let cursor_row_wraps := wrapped_rows.getD cursor_row 0 - 1
    if rows_from_top_to_cursor + cursor_row_wraps ≤ viewport_height then prev_top
    else
      let rows_to_move := rows_from_top_to_cursor + cursor_row_wraps - viewport_height
      let lines_to_move := (scanPos rows_to_move seg 0).getD 0 + 1
      min (prev_top + lines_to_move) cursor_row

/-- On-screen test of the code (widget.rs 183-190) evaluated at an arbitrary top
line `t`: the wrapped rows of lines `t..C`, plus 1, plus the cursor line's extra
wraps, fit within the viewport height. -/
def cursor_line_fits (rows : List Nat) (t C H : Nat) : Prop :=
  ((rows.drop t).take (C - t)).sum + 1 + (rows.getD C 0 - 1) ≤ H

instance (rows : List Nat) (t C H : Nat) : Decidable (cursor_line_fits rows t C H) :=
  inferInstanceAs (Decidable (_ ≤ _))

/-- Modelled from the spec: the wrapped-visibility wording "the cursor's first
wrapped row is on-screen" for a candidate top `t` — the wrapped rows of the
lines above the cursor plus the cursor's first row fit within `H`.  Stated only
to compare the spec's characterization against the code. -/
def spec_first_row_on_screen (rows : List Nat) (t C H : Nat) : Prop :=
  ((rows.drop t).take (C - t)).sum + 1 ≤ H

instance (rows : List Nat) (t C H : Nat) : Decidable (spec_first_row_on_screen rows t C H) :=
  inferInstanceAs (Decidable (_ ≤ _))

/-- Modelled from the spec: `num_digits` (from `crate::util`, whose source is not
included) — "digit-count of an integer (for gutter width)", i.e. the number of
decimal digits.  Structural recursion on a fuel argument; `fuel = n` suffices. -/
def num_digits_fuel : Nat → Nat → Nat
  | 0, _ => 1
  | fuel + 1, n => if n < 10 then 1 else 1 + num_digits_fuel fuel (n / 10)

/-- Number of decimal digits of `n`; see `num_digits_fuel`. -/
def num_digits (n : Nat) : Nat := num_digits_fuel n n

/-- Rust `TextArea::scroll_top_col` (widget.rs 117-129): gutter pre-adjustment of
the cursor column, then the unwrapped rule. -/
def scroll_top_col (prev_top width cursor_col : Nat) (has_lnum : Bool) (nlines : Nat) : Nat :=
  let cursor :=
    if has_lnum then
      let lnum := num_digits nlines + 2
      if cursor_col ≤ lnum then cursor_col * 2 else cursor_col + lnum
    else cursor_col
  next_scroll_top prev_top cursor width

/-- Column offset a render pass resolves (widget.rs 140-155): `scroll_top_col` is
applied unconditionally before the wrap branch; then — only when wrap is off —
`next_scroll_top` is applied a second time with the raw cursor column. -/
def render_top_col (wrap : Bool) (prev_top width cursor_col : Nat)
    (has_lnum : Bool) (nlines : Nat) : Nat :=
  let tc := scroll_top_col prev_top width cursor_col has_lnum nlines
  if wrap then tc else next_scroll_top tc cursor_col width

/-- Row offset a render pass resolves (widget.rs 140-155): `scroll_top_row`
(= `next_scroll_top`) first, then the wrapped algorithm (wrap on) or a second
`next_scroll_top` (wrap off). -/
def render_top_row (wrap : Bool) (prev_top cursor_row height : Nat)
    (wrapped_rows : List Nat) : Nat :=
  let tr := next_scroll_top prev_top cursor_row height
  if wrap then next_scroll_row_wrapped tr cursor_row height wrapped_rows
  else next_scroll_top tr cursor_row height

/-- Condition under which render applies a horizontal scroll to the paragraph
(widget.rs 233-235): the resolved column offset is nonzero — in wrap and
non-wrap mode alike. -/
def hscroll_applied (top_col : Nat) : Prop := top_col ≠ 0

instance (t : Nat) : Decidable (hscroll_applied t) :=
  inferInstanceAs (Decidable (t ≠ 0))

/-- Modelled from the spec for comparison: "the column offset resolved by a
render pass is `next_scroll_top` applied to an adjusted cursor column", with the
described gutter adjustment (gutter width = digit count + 2; double the raw
column when it is at most the gutter width, otherwise add the gutter width). -/
def spec_resolved_col (prev_top width cursor_col nlines : Nat) : Nat :=
  let lnum := num_digits nlines + 2
  let adjusted := if cursor_col ≤ lnum then cursor_col * 2 else cursor_col + lnum
  next_scroll_top prev_top adjusted width

theorem next_scroll_top_bounds (T C L : Nat) (hL : 1 ≤ L) :
    next_scroll_top T C L ≤ C ∧ C < next_scroll_top T C L + L := by
  unfold next_scroll_top
  rcases Nat.lt_or_ge C T with h | h
  · rw [if_pos h]; omega
  · rw [if_neg (by omega)]
    rcases Nat.lt_or_ge C (T + L) with h2 | h2
    · rw [if_neg (by omega)]; omega
    · rw [if_pos (by omega)]; omega

theorem next_scroll_top_visible (T C L : Nat) (h1 : T ≤ C) (h2 : C < T + L) :
    next_scroll_top T C L = T := by
  unfold next_scroll_top
  rw [if_neg (by omega), if_neg (by omega)]

/-- C1: for every previous top `T`, cursor `C` and extent `L ≥ 1`, the new
offset `T'` of `next_scroll_top` satisfies `T' ≤ C < T' + L`. -/
theorem unwrapped_visibility_invariant (T C L : Nat) (hL : 1 ≤ L) :
    next_scroll_top T C L ≤ C ∧ C < next_scroll_top T C L + L :=
  next_scroll_top_bounds T C L hL

theorem unwrapped_visibility_invariant_witness :
    1 ≤ 10 ∧ (next_scroll_top 0 12 10 ≤ 12 ∧ 12 < next_scroll_top 0 12 10 + 10) :=
  ⟨by decide, unwrapped_visibility_invariant 0 12 10 (by decide)⟩

/-- C10: the unwrapped rule is idempotent for `L ≥ 1`, hence the render path's
double application of the rule to the row axis in non-wrap mode equals a single
application. -/
theorem unwrapped_scroll_idempotent (T C L : Nat) (rows : List Nat) (hL : 1 ≤ L) :
    next_scroll_top (next_scroll_top T C L) C L = next_scroll_top T C L ∧
    render_top_row false T C L rows = next_scroll_top T C L := by
  have h := next_scroll_top_bounds T C L hL
  have key : next_scroll_top (next_scroll_top T C L) C L = next_scroll_top T C L := by
    set q := next_scroll_top T C L with hq
    unfold next_scroll_top
    rw [if_neg (by omega), if_neg (by omega)]
  exact ⟨key, key⟩

theorem unwrapped_scroll_idempotent_witness :
    1 ≤ 10 ∧
      (next_scroll_top (next_scroll_top 3 12 10) 12 10 = next_scroll_top 3 12 10 ∧
        render_top_row false 3 12 10 [1, 1] = next_scroll_top 3 12 10) :=
  ⟨by decide, unwrapped_scroll_idempotent 3 12 10 [1, 1] (by decide)⟩

/-- C5: the wrapped algorithm never returns a top beyond the cursor row: for
`T ≤ C` the result is at most `C`, and for `C < T` it is exactly `C`. -/
theorem wrapped_no_overscroll (rows : List Nat) (T C H : Nat)
    (hpos : ∀ r ∈ rows, 1 ≤ r) (hC : C < rows.length) :
    (T ≤ C → next_scroll_row_wrapped T C H rows ≤ C) ∧
    (C < T → next_scroll_row_wrapped T C H rows = C) := by
  constructor
  · intro hTC
    simp only [next_scroll_row_wrapped]
    split
    · omega
    · split
      · exact hTC
      · exact Nat.min_le_right _ _
  · intro hCT
    simp only [next_scroll_row_wrapped]
    rw [if_pos hCT]

theorem wrapped_no_overscroll_witness :
    (0 ≤ 1 → next_scroll_row_wrapped 0 1 5 [1, 1] ≤ 1) ∧
      (1 < 0 → next_scroll_row_wrapped 0 1 5 [1, 1] = 1) :=
  wrapped_no_overscroll [1, 1] 0 1 5 (by decide) (by decide)

theorem getD_pos_of_mem (rows : List Nat) (C : Nat)
    (hpos : ∀ r ∈ rows, 1 ≤ r) (hC : C < rows.length) : 1 ≤ rows.getD C 0 := by
  have h1 : rows.getD C 0 = rows[C] := by
    rw [List.getD_eq_getElem?_getD, List.getElem?_eq_getElem hC]
    rfl
  rw [h1]
  exact hpos _ (List.getElem_mem hC)

theorem scanPos_spec (seg : List Nat) :
    ∀ (acc i : Nat) {target : Nat}, scanPos target seg acc = some i →
      target ≤ acc + (seg.take (i + 1)).sum ∧
      (∀ j, j < i → acc + (seg.take (j + 1)).sum < target) ∧
      i < seg.length := by
  induction seg with
  | nil => intro acc i target h; simp [scanPos] at h
  | cons r rs ih =>
    intro acc i target h
    simp only [scanPos] at h
    by_cases h1 : target ≤ acc + r
    · rw [if_pos h1] at h
      injection h with h
      subst h
      refine ⟨by simpa using h1, fun j hj => by omega, by simp⟩
    · rw [if_neg h1] at h
      cases hrec : scanPos target rs (acc + r) with
      | none => rw [hrec] at h; cases h
      | some i2 =>
        rw [hrec] at h
        injection h with h
        subst h
        obtain ⟨ha, hb, hc⟩ := ih (acc + r) i2 hrec
        refine ⟨?_, ?_, by simpa using hc⟩
        · simpa [List.take_succ_cons, Nat.add_assoc] using ha
        · intro j hj
          cases j with
          | zero => simpa using Nat.lt_of_not_le h1
          | succ j2 =>
            have := hb j2 (by omega)
            simpa [List.take_succ_cons, Nat.add_assoc] using this

theorem scanPos_none_sum (seg : List Nat) :
    ∀ (acc target : Nat), seg ≠ [] → scanPos target seg acc = none →
      acc + seg.sum < target := by
  induction seg with
  | nil => intro acc target hne _; exact absurd rfl hne
  | cons r rs ih =>
    intro acc target _ h
    simp only [scanPos] at h
    by_cases h1 : target ≤ acc + r
    · rw [if_pos h1] at h; cases h
    · rw [if_neg h1] at h
      cases hrec : scanPos target rs (acc + r) with
      | some i => rw [hrec] at h; cases h
      | none =>
        cases rs with
        | nil => simp only [List.sum_cons, List.sum_nil]; omega
        | cons r2 rs2 =>
          have := ih (acc + r) target (by simp) hrec
          simp only [List.sum_cons] at this ⊢
          omega

theorem scanPos_none_of_lt (seg : List Nat) :
    ∀ (acc target : Nat), acc + seg.sum < target → scanPos target seg acc = none := by
  induction seg with
  | nil => intro acc target _; rfl
  | cons r rs ih =>
    intro acc target h
    simp only [List.sum_cons] at h
    simp only [scanPos]
    rw [if_neg (by omega), ih (acc + r) target (by omega)]

theorem seg_drop_eq (rows : List Nat) (T C k : Nat) :
    ((rows.drop T).take (C - T)).drop k = (rows.drop (T + k)).take (C - (T + k)) := by
  rw [List.drop_take, List.drop_drop, Nat.sub_sub]

theorem seg_sum_split (rows : List Nat) (T C k : Nat) :
    ((rows.drop T).take (C - T)).sum =
      (((rows.drop T).take (C - T)).take k).sum +
        ((rows.drop (T + k)).take (C - (T + k))).sum := by
  rw [← seg_drop_eq rows T C k]
  conv_lhs => rw [← List.take_append_drop k ((rows.drop T).take (C - T))]
  rw [List.sum_append]

theorem wrapped_fits_eq (rows : List Nat) (T C H : Nat) (hTC : T ≤ C)
    (hfits : cursor_line_fits rows T C H) :
    next_scroll_row_wrapped T C H rows = T := by
  have h2 : ((rows.drop T).take (C - T)).sum + 1 + (rows.getD C 0 - 1) ≤ H := hfits
  simp only [next_scroll_row_wrapped]
  rw [if_neg (by omega), if_pos h2]

theorem wrapped_overflow_eq (rows : List Nat) (T C H : Nat) (hTC : T ≤ C)
    (hnofit : ¬ cursor_line_fits rows T C H) :
    next_scroll_row_wrapped T C H rows =
      min (T + ((scanPos
          (((rows.drop T).take (C - T)).sum + 1 + (rows.getD C 0 - 1) - H)
          ((rows.drop T).take (C - T)) 0).getD 0 + 1)) C := by
  have h2 : ¬ ((rows.drop T).take (C - T)).sum + 1 + (rows.getD C 0 - 1) ≤ H := hnofit
  simp only [next_scroll_row_wrapped]
  rw [if_neg (by omega), if_neg h2]

theorem wrapped_branch_tall_line (rows : List Nat) (T C H : Nat)
    (hpos : ∀ r ∈ rows, 1 ≤ r) (hTC : T ≤ C) (hC : C < rows.length)
    (hnofit : ¬ cursor_line_fits rows T C H) (hHrC : H < rows.getD C 0) :
    next_scroll_row_wrapped T C H rows = min (T + 1) C := by
  have hrC1 : 1 ≤ rows.getD C 0 := getD_pos_of_mem rows C hpos hC
  have hval := wrapped_overflow_eq rows T C H hTC hnofit
  have hnone : scanPos
      (((rows.drop T).take (C - T)).sum + 1 + (rows.getD C 0 - 1) - H)
      ((rows.drop T).take (C - T)) 0 = none := by
    apply scanPos_none_of_lt
    omega
  rw [hnone] at hval
  simpa using hval

theorem wrapped_branch_overflow (rows : List Nat) (T C H : Nat)
    (hpos : ∀ r ∈ rows, 1 ≤ r) (hTC : T ≤ C) (hC : C < rows.length)
    (hnofit : ¬ cursor_line_fits rows T C H) (hrCH : rows.getD C 0 ≤ H) :
    T + 1 ≤ next_scroll_row_wrapped T C H rows ∧
    next_scroll_row_wrapped T C H rows ≤ C ∧
    cursor_line_fits rows (next_scroll_row_wrapped T C H rows) C H ∧
    ∀ t, T + 1 ≤ t → t < next_scroll_row_wrapped T C H rows →
      ¬ cursor_line_fits rows t C H := by
  have hrC1 : 1 ≤ rows.getD C 0 := getD_pos_of_mem rows C hpos hC
  have hnofit2 : ¬ ((rows.drop T).take (C - T)).sum + 1 + (rows.getD C 0 - 1) ≤ H := hnofit
  rcases Nat.eq_or_lt_of_le hTC with rfl | hTlt
  · exfalso
    apply hnofit2
    simp only [Nat.sub_self, List.take_zero, List.sum_nil]
    omega
  have hlen : ((rows.drop T).take (C - T)).length = C - T := by
    rw [List.length_take, List.length_drop]
    omega
  have hne : (rows.drop T).take (C - T) ≠ [] := by
    intro h0
    rw [h0] at hlen
    simp at hlen
    omega
  have hval := wrapped_overflow_eq rows T C H hTC hnofit
  cases hsp : scanPos
      (((rows.drop T).take (C - T)).sum + 1 + (rows.getD C 0 - 1) - H)
      ((rows.drop T).take (C - T)) 0 with
  | none =>
    exfalso
    have := scanPos_none_sum _ 0 _ hne hsp
    omega
  | some i =>
    obtain ⟨hA, hB, hil⟩ := scanPos_spec _ 0 i hsp
    rw [hsp] at hval
    simp only [Option.getD_some] at hval
    have hiC : T + (i + 1) ≤ C := by
      rw [hlen] at hil
      omega
    rw [Nat.min_eq_left hiC] at hval
    refine ⟨by omega, by omega, ?_, ?_⟩
    · rw [hval]
      have hsplit := seg_sum_split rows T C (i + 1)
      show ((rows.drop (T + (i + 1))).take (C - (T + (i + 1)))).sum + 1 +
          (rows.getD C 0 - 1) ≤ H
      omega
    · intro t ht1 ht2 hfits_t
      rw [hval] at ht2
      have hBj := hB (t - T - 1) (by omega)
      have hjsucc : t - T - 1 + 1 = t - T := by omega
      rw [hjsucc] at hBj
      have hsplit := seg_sum_split rows T C (t - T)
      rw [show T + (t - T) = t by omega] at hsplit
      have hfits2 : ((rows.drop t).take (C - t)).sum + 1 + (rows.getD C 0 - 1) ≤ H := hfits_t
      omega

/-- C2 (amended): with one row-count entry per line, each at least 1, and
`T ≤ C < rows.length`, the wrapped algorithm returns `T` when the cursor's line
(counted as `sum rows[T..C] + 1 + (rows[C] - 1)`) already fits within `H`;
otherwise, when the cursor's line itself fits the height (`rows[C] ≤ H`), it
returns the smallest top `≥ T + 1`, never beyond `C`, that puts the cursor's
entire line on-screen; and when the cursor's line alone exceeds the height it
returns `min (T + 1) C`. -/
theorem wrapped_scroll_minimal_move (rows : List Nat) (T C H : Nat)
    (hpos : ∀ r ∈ rows, 1 ≤ r) (hTC : T ≤ C) (hC : C < rows.length) :
    (cursor_line_fits rows T C H → next_scroll_row_wrapped T C H rows = T) ∧
    (¬ cursor_line_fits rows T C H → rows.getD C 0 ≤ H →
      T + 1 ≤ next_scroll_row_wrapped T C H rows ∧
      next_scroll_row_wrapped T C H rows ≤ C ∧
      cursor_line_fits rows (next_scroll_row_wrapped T C H rows) C H ∧
      ∀ t, T + 1 ≤ t → t < next_scroll_row_wrapped T C H rows →
        ¬ cursor_line_fits rows t C H) ∧
    (¬ cursor_line_fits rows T C H → H < rows.getD C 0 →
      next_scroll_row_wrapped T C H rows = min (T + 1) C) :=
  ⟨fun hfits => wrapped_fits_eq rows T C H hTC hfits,
    fun hnofit hrCH => wrapped_branch_overflow rows T C H hpos hTC hC hnofit hrCH,
    fun hnofit hHrC => wrapped_branch_tall_line rows T C H hpos hTC hC hnofit hHrC⟩

/-- C2 counterexample: on `rows = [1, 5, 10]`, `T = 0`, `C = 2`, `H = 3` the
cursor's line does not fit, and the claim's characterization would demand the
smallest top `≥ 1`, capped at `C = 2`, making the cursor's first wrapped row
on-screen — that is `2`, since top `1` leaves the first wrapped row off-screen —
yet the code returns `1`. -/
theorem wrapped_scroll_spec_counterexample :
    next_scroll_row_wrapped 0 2 3 [1, 5, 10] = 1 ∧
    ¬ cursor_line_fits [1, 5, 10] 0 2 3 ∧
    ¬ spec_first_row_on_screen [1, 5, 10] 1 2 3 ∧
    spec_first_row_on_screen [1, 5, 10] 2 2 3 := by
  decide

theorem wrapped_scroll_minimal_move_witness :
    next_scroll_row_wrapped 0 2 3 [1, 3, 1, 1] = 2 ∧
    0 + 1 ≤ next_scroll_row_wrapped 0 2 3 [1, 3, 1, 1] ∧
    next_scroll_row_wrapped 0 2 3 [1, 3, 1, 1] ≤ 2 ∧
    cursor_line_fits [1, 3, 1, 1] (next_scroll_row_wrapped 0 2 3 [1, 3, 1, 1]) 2 3 ∧
    ¬ cursor_line_fits [1, 3, 1, 1] 1 2 3 := by
  have h := (wrapped_scroll_minimal_move [1, 3, 1, 1] 0 2 3 (by decide) (by decide)
    (by decide)).2.1 (by decide) (by decide)
  exact ⟨by decide, h.1, h.2.1, h.2.2.1, h.2.2.2 1 (by decide) (by decide)⟩

theorem or_eq_add_pow (i a b : Nat) (hb : b < 2 ^ i) : (a * 2 ^ i) ||| b = a * 2 ^ i + b := by
  rw [Nat.mul_comm a (2 ^ i)]
  exact (Nat.mul_add_lt_is_or hb a).symm

theorem pack_eq (r c w h : Nat) (hr : r < 65536) (hc : c < 65536)
    (hw : w < 65536) (hh : h < 65536) :
    store r c w h = w * 2 ^ 48 + h * 2 ^ 32 + r * 2 ^ 16 + c := by
  unfold store
  rw [Nat.shiftLeft_eq, Nat.shiftLeft_eq, Nat.shiftLeft_eq]
  rw [or_eq_add_pow 48 w (h * 2 ^ 32) (by norm_num; omega)]
  rw [show w * 2 ^ 48 + h * 2 ^ 32 = (w * 2 ^ 16 + h) * 2 ^ 32 by ring]
  rw [or_eq_add_pow 32 _ (r * 2 ^ 16) (by norm_num; omega)]
  rw [show (w * 2 ^ 16 + h) * 2 ^ 32 + r * 2 ^ 16 =
      ((w * 2 ^ 16 + h) * 2 ^ 16 + r) * 2 ^ 16 by ring]
  rw [or_eq_add_pow 16 _ c (by norm_num; try omega)]

theorem unpack_row (w h r c : Nat) (hr : r < 65536) (hc : c < 65536)
    (hw : w < 65536) (hh : h < 65536) :
    ((w * 2 ^ 48 + h * 2 ^ 32 + r * 2 ^ 16 + c) >>> 16) % 65536 = r := by
  rw [Nat.shiftRight_eq_div_pow]
  norm_num
  omega

theorem unpack_col (w h r c : Nat) (hr : r < 65536) (hc : c < 65536)
    (hw : w < 65536) (hh : h < 65536) :
    (w * 2 ^ 48 + h * 2 ^ 32 + r * 2 ^ 16 + c) % 65536 = c := by
  norm_num
  try omega

theorem unpack_width (w h r c : Nat) (hr : r < 65536) (hc : c < 65536)
    (hw : w < 65536) (hh : h < 65536) :
    ((w * 2 ^ 48 + h * 2 ^ 32 + r * 2 ^ 16 + c) >>> 48) % 65536 = w := by
  rw [Nat.shiftRight_eq_div_pow]
  norm_num
  omega

theorem unpack_height (w h r c : Nat) (hr : r < 65536) (hc : c < 65536)
    (hw : w < 65536) (hh : h < 65536) :
    ((w * 2 ^ 48 + h * 2 ^ 32 + r * 2 ^ 16 + c) >>> 32) % 65536 = h := by
  rw [Nat.shiftRight_eq_div_pow]
  norm_num
  omega

theorem scroll_top_store (r c w h : Nat) (hr : r < 65536) (hc : c < 65536)
    (hw : w < 65536) (hh : h < 65536) :
    scroll_top (store r c w h) = (r, c) := by
  unfold scroll_top
  rw [pack_eq r c w h hr hc hw hh, unpack_row w h r c hr hc hw hh,
    unpack_col w h r c hr hc hw hh]

theorem rect_store (r c w h : Nat) (hr : r < 65536) (hc : c < 65536)
    (hw : w < 65536) (hh : h < 65536) :
    rect (store r c w h) = (r, c, w, h) := by
  unfold rect
  rw [pack_eq r c w h hr hc hw hh, unpack_row w h r c hr hc hw hh,
    unpack_col w h r c hr hc hw hh, unpack_width w h r c hr hc hw hh,
    unpack_height w h r c hr hc hw hh]

/-- C6: storing `(row, col, width, height)` packs width into the highest 16
bits, then height, then row, then col, and reading back through `scroll_top`
and `rect` returns exactly the stored values. -/
theorem packed_state_roundtrip (r c w h : Nat) (hr : r < 65536) (hc : c < 65536)
    (hw : w < 65536) (hh : h < 65536) :
    store r c w h = w * 2 ^ 48 + h * 2 ^ 32 + r * 2 ^ 16 + c ∧
    scroll_top (store r c w h) = (r, c) ∧
    rect (store r c w h) = (r, c, w, h) :=
  ⟨pack_eq r c w h hr hc hw hh, scroll_top_store r c w h hr hc hw hh,
    rect_store r c w h hr hc hw hh⟩

theorem packed_state_roundtrip_witness :
    store 1 2 3 4 = 3 * 2 ^ 48 + 4 * 2 ^ 32 + 1 * 2 ^ 16 + 2 ∧
    scroll_top (store 1 2 3 4) = (1, 2) ∧
    rect (store 1 2 3 4) = (1, 2, 3, 4) :=
  packed_state_roundtrip 1 2 3 4 (by decide) (by decide) (by decide) (by decide)

/-- C9: for every stored quadruple, including zero width or height, the position
bounds have top row and col equal to the stored offsets, the bottom row at least
the top row and the right col at least the top col. -/
theorem position_bounds_nondegenerate (r c w h : Nat) (hr : r < 65536)
    (hc : c < 65536) (hw : w < 65536) (hh : h < 65536) :
    (position (store r c w h)).1 = r ∧
    (position (store r c w h)).2.1 = c ∧
    (position (store r c w h)).1 ≤ (position (store r c w h)).2.2.1 ∧
    (position (store r c w h)).2.1 ≤ (position (store r c w h)).2.2.2 := by
  unfold position
  rw [rect_store r c w h hr hc hw hh]
  exact ⟨rfl, rfl, Nat.le_max_left _ _, Nat.le_max_left _ _⟩

theorem position_bounds_nondegenerate_witness :
    (position (store 5 7 0 0)).1 = 5 ∧
    (position (store 5 7 0 0)).2.1 = 7 ∧
    (position (store 5 7 0 0)).1 ≤ (position (store 5 7 0 0)).2.2.1 ∧
    (position (store 5 7 0 0)).2.1 ≤ (position (store 5 7 0 0)).2.2.2 :=
  position_bounds_nondegenerate 5 7 0 0 (by decide) (by decide) (by decide) (by decide)

theorem mask_eq_shift : (0xffffffff00000000 : Nat) = (2 ^ 32 - 1) <<< 32 := by
  norm_num [Nat.shiftLeft_eq]

theorem and_mask_low (x : Nat) (hx : x < 2 ^ 32) : x &&& 0xffffffff00000000 = 0 := by
  rw [mask_eq_shift]
  apply Nat.eq_of_testBit_eq
  intro j
  rw [Nat.testBit_and, Nat.testBit_shiftLeft, Nat.zero_testBit]
  rcases Nat.lt_or_ge j 32 with hj | hj
  · simp [show ¬ 32 ≤ j from by omega]
  · have hb : x.testBit j = false :=
      Nat.testBit_lt_two_pow (lt_of_lt_of_le hx (Nat.pow_le_pow_right (by norm_num) hj))
    simp [hb]

theorem and_mask_high (a : Nat) (ha : a < 2 ^ 32) :
    (a * 2 ^ 32) &&& 0xffffffff00000000 = a * 2 ^ 32 := by
  rw [mask_eq_shift]
  apply Nat.eq_of_testBit_eq
  intro j
  rw [Nat.testBit_and, Nat.testBit_shiftLeft, Nat.mul_comm a (2 ^ 32),
    Nat.testBit_mul_pow_two, Nat.testBit_two_pow_sub_one]
  rcases Nat.lt_or_ge j 32 with hj | hj
  · simp [show ¬ 32 ≤ j from by omega]
  · rcases Nat.lt_or_ge (j - 32) 32 with hj2 | hj2
    · simp [show 32 ≤ j from hj, hj2]
    · have hb : a.testBit (j - 32) = false :=
        Nat.testBit_lt_two_pow (lt_of_lt_of_le ha (Nat.pow_le_pow_right (by norm_num) hj2))
      simp [hb]

theorem apply_scroll_lt (pos : Nat) (delta : Int) (hpos : pos < 65536) :
    apply_scroll pos delta < 65536 := by
  unfold apply_scroll sat_add16
  split
  · have := Nat.min_le_right (pos + delta.toNat) 65535
    omega
  · have := Nat.sub_le pos ((-delta) % 65536).toNat
    omega

theorem apply_scroll_eq_clamp (pos : Nat) (delta : Int) (hpos : pos < 65536)
    (h1 : -32768 ≤ delta) (h2 : delta ≤ 32767) :
    apply_scroll pos delta = clamp16 ((pos : Int) + delta) := by
  unfold apply_scroll sat_add16 clamp16
  split
  · omega
  · have hm : (-delta) % 65536 = -delta := Int.emod_eq_of_lt (by omega) (by omega)
    rw [hm]
    omega

/-- C7: `scroll` updates the stored row and col to exactly the integer sums
clamped into `[0, 65535]`: deltas past either end saturate, and the result never
wraps around. -/
theorem scroll_by_saturates (r c w h : Nat) (dr dc : Int)
    (hr : r < 65536) (hc : c < 65536) (hw : w < 65536) (hh : h < 65536)
    (hdr1 : -32768 ≤ dr) (hdr2 : dr ≤ 32767) (hdc1 : -32768 ≤ dc) (hdc2 : dc ≤ 32767) :
    scroll_top (scroll (store r c w h) dr dc) =
      (clamp16 ((r : Int) + dr), clamp16 ((c : Int) + dc)) := by
  have hp := pack_eq r c w h hr hc hw hh
  unfold scroll
  rw [hp, unpack_row w h r c hr hc hw hh, unpack_col w h r c hr hc hw hh]
  have hlow : r * 2 ^ 16 + c < 2 ^ 32 := by norm_num; try omega
  have hhigh : w * 2 ^ 16 + h < 2 ^ 32 := by norm_num; try omega
  have hN : w * 2 ^ 48 + h * 2 ^ 32 + r * 2 ^ 16 + c
      = ((w * 2 ^ 16 + h) * 2 ^ 32) ||| (r * 2 ^ 16 + c) := by
    rw [or_eq_add_pow 32 _ _ hlow]
    ring
  have hmask : (w * 2 ^ 48 + h * 2 ^ 32 + r * 2 ^ 16 + c) &&& 0xffffffff00000000
      = (w * 2 ^ 16 + h) * 2 ^ 32 := by
    rw [hN, Nat.and_distrib_right, and_mask_high _ hhigh, and_mask_low _ hlow, Nat.or_zero]
  rw [hmask]
  have hR := apply_scroll_lt r dr hr
  have hCl := apply_scroll_lt c dc hc
  rw [Nat.shiftLeft_eq]
  rw [or_eq_add_pow 32 _ (apply_scroll r dr * 2 ^ 16) (by norm_num; try omega)]
  rw [show (w * 2 ^ 16 + h) * 2 ^ 32 + apply_scroll r dr * 2 ^ 16
      = ((w * 2 ^ 16 + h) * 2 ^ 16 + apply_scroll r dr) * 2 ^ 16 by ring]
  rw [or_eq_add_pow 16 _ (apply_scroll c dc) (by norm_num; try omega)]
  rw [show ((w * 2 ^ 16 + h) * 2 ^ 16 + apply_scroll r dr) * 2 ^ 16 + apply_scroll c dc
      = w * 2 ^ 48 + h * 2 ^ 32 + apply_scroll r dr * 2 ^ 16 + apply_scroll c dc by ring]
  unfold scroll_top
  rw [unpack_row w h _ _ hR hCl hw hh, unpack_col w h _ _ hR hCl hw hh,
    apply_scroll_eq_clamp r dr hr hdr1 hdr2, apply_scroll_eq_clamp c dc hc hdc1 hdc2]

theorem scroll_by_saturates_witness :
    scroll_top (scroll (store 5 7 1 1) (-32768) 3) = (0, 10) := by
  have h := scroll_by_saturates 5 7 1 1 (-32768) 3 (by decide) (by decide) (by decide)
    (by decide) (by decide) (by decide) (by decide) (by decide)
  rw [h]
  decide

/-- C3 is contradicted by the code: with wrap enabled, previous column offset 0,
width 5, cursor column 10 and no line numbers, the render pass resolves the
column offset to 6 through `scroll_top_col` (which runs before the wrap branch)
and, since 6 is nonzero, applies a horizontal scroll to the painted content —
despite the code's own comment that the column should never change with
wrapping. -/
theorem wrap_mode_scrolls_columns :
    render_top_col true 0 5 10 false 1 = 6 ∧
    hscroll_applied (render_top_col true 0 5 10 false 1) := by
  decide

/-- C4 counterexample: `next_scroll_top` is not saturating.  At `prev_top = 0`,
`cursor = 65535`, `len = 1` the checked evaluation reaches `cursor + 1`, which
overflows `u16` (a panic in debug builds), so the claim that every operation in
the scroll computations saturates is false. -/
theorem scroll_arithmetic_overflow_cex :
    next_scroll_top_checked 0 65535 1 = none := by
  decide

/-- C4 (amended): `Viewport::scroll` genuinely saturates — its result stays in
the `u16` range for every stored offset and every `i16` delta (with release
semantics giving `i16::MIN` magnitude 32768) — while `next_scroll_top` uses
plain `u16` arithmetic whose operations stay in range only when
`prev_top + len ≤ 65535` and `cursor + 1 ≤ 65535`; under those bounds the
checked evaluation succeeds and agrees with the `Nat` model. -/
theorem scroll_arithmetic_amended (pos : Nat) (delta : Int) (p cu l : Nat)
    (hpos : pos < 65536) (h1 : -32768 ≤ delta) (h2 : delta ≤ 32767)
    (hpl : p + l ≤ 65535) (hcu : cu + 1 ≤ 65535) :
    apply_scroll pos delta < 65536 ∧
    next_scroll_top_checked p cu l = some (next_scroll_top p cu l) := by
  refine ⟨apply_scroll_lt pos delta hpos, ?_⟩
  unfold next_scroll_top_checked next_scroll_top
  by_cases h0 : cu < p
  · rw [if_pos h0, if_pos h0]
  · rw [if_neg h0, if_neg h0, if_pos hpl]
    by_cases h3 : p + l ≤ cu
    · rw [if_pos h3, if_pos h3, if_pos (show cu + 1 ≤ 65535 from hcu),
        if_pos (show l ≤ cu + 1 by omega)]
    · rw [if_neg h3, if_neg h3]

theorem scroll_arithmetic_amended_witness :
    apply_scroll 10 (-32768) < 65536 ∧
    next_scroll_top_checked 0 5 3 = some (next_scroll_top 0 5 3) :=
  scroll_arithmetic_amended 10 (-32768) 0 5 3 (by decide) (by decide) (by decide)
    (by decide) (by decide)

/-- C8 counterexample: with wrap off, gutter shown, previous column offset 20,
width 5, raw cursor column 10 and 10 total lines (gutter width 4, adjusted
column 14), a single `next_scroll_top` on the adjusted column gives 14, but the
render pass resolves 10 because it applies `next_scroll_top` a second time with
the raw cursor column. -/
theorem gutter_col_single_pass_cex :
    render_top_col false 20 5 10 true 10 = 10 ∧
    spec_resolved_col 20 5 10 10 = 14 ∧
    render_top_col false 20 5 10 true 10 ≠ spec_resolved_col 20 5 10 10 := by
  decide

/-- C8 (amended): with wrap off and a gutter shown, the render pass resolves the
column offset by applying `next_scroll_top` twice — first to the cursor column
adjusted exactly as the claim describes (gutter width = digit count of the line
count + 2, doubling the raw column when it is at most the gutter width and
adding the gutter width otherwise), then again with the raw cursor column; the
result equals the claim's single adjusted application whenever that first
result already keeps the raw cursor column in view. -/
theorem gutter_col_adjustment_amended (prev width cu nlines : Nat) :
    render_top_col false prev width cu true nlines =
      next_scroll_top
        (next_scroll_top prev
          (if cu ≤ num_digits nlines + 2 then cu * 2 else cu + (num_digits nlines + 2))
          width)
        cu width ∧
    scroll_top_col prev width cu true nlines = spec_resolved_col prev width cu nlines ∧
    (spec_resolved_col prev width cu nlines ≤ cu →
      cu < spec_resolved_col prev width cu nlines + width →
      render_top_col false prev width cu true nlines =
        spec_resolved_col prev width cu nlines) := by
  refine ⟨rfl, rfl, ?_⟩
  intro hl hr2
  calc render_top_col false prev width cu true nlines
      = next_scroll_top (spec_resolved_col prev width cu nlines) cu width := rfl
    _ = spec_resolved_col prev width cu nlines :=
        next_scroll_top_visible (spec_resolved_col prev width cu nlines) cu width hl hr2

theorem gutter_col_adjustment_amended_witness :
    render_top_col false 0 10 3 true 100 = spec_resolved_col 0 10 3 100 :=
  (gutter_col_adjustment_amended 0 10 3 100).2.2 (by decide) (by decide)
